import Mathlib

/-!
Shallow embedding of the asynchronous submission-processing core of the
OpenPecha EvalAI backend: the in-memory progress cache
(submission_cache.py), the submission worker pipeline
(submission_worker.py), the evaluation engine (Evaluation/evaluation.py)
and the status projection of the submission router
(routers/submission.py).  Timestamps are modelled as explicit natural
numbers passed to each operation; the Python dict backing the cache is
modelled as an association list with unique keys maintained by
construction.
-/

/-- The status values of cached submissions (class CacheStatus). -/
inductive CacheStatus where
  | pending
  | processing
  | uploading
  | validating
  | evaluating
  | completed
  | failed
deriving DecidableEq

/-- Progress data structure for cached submissions
(dataclass SubmissionProgress).  `started_at`/`updated_at` are the
timestamps filled in by `__post_init__` at construction time. -/
structure SubmissionProgress where
  submission_id : String
  status : CacheStatus
  message : String
  progress_percentage : Int
  step : String
  error_details : Option String
  started_at : Nat
  updated_at : Nat
deriving DecidableEq

/-- SubmissionProgress.update: each argument that is `none` (Python
`None`) leaves the corresponding field unchanged; a given progress value
is clamped by `max(0, min(100, progress))`; `updated_at` is set to the
current time. -/
def SubmissionProgress.update (p : SubmissionProgress)
    (status : Option CacheStatus) (message : Option String)
    (progress : Option Int) (step : Option String)
    (error : Option String) (now : Nat) : SubmissionProgress :=
  { p with
    status := status.getD p.status
    message := message.getD p.message
    progress_percentage :=
      match progress with
      | some v => max 0 (min 100 v)
      | none => p.progress_percentage
    step := step.getD p.step
    error_details :=
      match error with
      | some e => some e
      | none => p.error_details
    updated_at := now }

/-- The cache dictionary `self._cache : Dict[str, SubmissionProgress]`,
as an association list with unique keys. -/
abbrev Cache := List (String × SubmissionProgress)

/-- SubmissionCache.get_progress: point lookup. -/
def get_progress : Cache → String → Option SubmissionProgress
  | [], _ => none
  | (k, p) :: rest, id => if k = id then some p else get_progress rest id

/-- SubmissionCache.set_progress: if the key is present, the existing
entry is updated in place via SubmissionProgress.update (status, message,
progress and step are always passed, error may be absent); otherwise a
fresh SubmissionProgress is constructed, storing the given progress value
directly. -/
def set_progress : Cache → String → CacheStatus → String → Int → String →
    Option String → Nat → Cache
  | [], id, st, msg, prog, stp, err, now =>
      [(id, { submission_id := id, status := st, message := msg,
              progress_percentage := prog, step := stp,
              error_details := err, started_at := now, updated_at := now })]
  | (k, p) :: rest, id, st, msg, prog, stp, err, now =>
      if k = id then
        (k, p.update (some st) (some msg) (some prog) (some stp) err now) :: rest
      else
        (k, p) :: set_progress rest id st msg prog stp err now

/-- The eviction condition of SubmissionCache.cleanup_old_entries: the
entry is completed or failed, and its last update is older than
`max_age_seconds` before the current time. -/
def shouldRemoveB (now max_age : Int) (p : SubmissionProgress) : Bool :=
  (p.status == CacheStatus.completed || p.status == CacheStatus.failed) &&
    decide (now - (p.updated_at : Int) > max_age)

/-- SubmissionCache.cleanup_old_entries: collects every entry meeting the
eviction condition, deletes those entries, and returns the updated cache
together with the number of removed entries. -/
def cleanup_old_entries (c : Cache) (now max_age : Int) : Cache × Nat :=
  let to_remove := c.filter (fun e => shouldRemoveB now max_age e.2)
  (c.filter (fun e => !(shouldRemoveB now max_age e.2)), to_remove.length)

/-- One call to set_progress, as data: the five caller-supplied fields. -/
structure SetCall where
  status : CacheStatus
  message : String
  progress : Int
  step : String
  error : Option String
deriving DecidableEq

/-- A sequence of sequential set_progress calls on one key, at strictly
increasing times. -/
def run_calls : Cache → String → List SetCall → Nat → Cache
  | c, _, [], _ => c
  | c, id, sc :: rest, t =>
      run_calls (set_progress c id sc.status sc.message sc.progress sc.step sc.error t)
        id rest (t + 1)

/-- The error_details produced by a sequence of calls starting from a
given stored value: a call with a present error overwrites, a call with
an absent error preserves. -/
def lastErrorFrom : Option String → List SetCall → Option String
  | acc, [] => acc
  | acc, sc :: rest =>
      lastErrorFrom (match sc.error with | some e => some e | none => acc) rest

/-- The caller-visible fields of a cached entry (everything except the
key and the timestamps). -/
structure FieldsView where
  status : CacheStatus
  message : String
  progress : Int
  step : String
  error : Option String
deriving DecidableEq

/-- Project a stored entry to its caller-visible fields. -/
def viewOf (p : SubmissionProgress) : FieldsView :=
  ⟨p.status, p.message, p.progress_percentage, p.step, p.error_details⟩

/-- Effect of one set_progress call on an existing entry's visible
fields (the update path of set_progress). -/
def apply_call (v : FieldsView) (sc : SetCall) : FieldsView :=
  ⟨sc.status, sc.message, max 0 (min 100 sc.progress), sc.step,
    match sc.error with | some e => some e | none => v.error⟩

/-- The durable submission status enumeration
(models/submission.py, class SubmissionStatus). -/
inductive SubmissionStatus where
  | pending
  | processing
  | completed
  | failed
deriving DecidableEq

/-- The fields of the durable Submission record that the worker pipeline
reads or writes (models/submission.py, class Submission). -/
structure Submission where
  status : SubmissionStatus
  status_message : Option String
  dataset_url : Option String
deriving DecidableEq

/-- The cache-to-schema status mapping of get_submission_status
(routers/submission.py): the dictionary cache_to_schema_status, whose
lookup default (PROCESSING) is unreachable because every CacheStatus
value is a key. -/
def cache_to_schema_status : CacheStatus → SubmissionStatus
  | CacheStatus.pending => SubmissionStatus.pending
  | CacheStatus.processing => SubmissionStatus.processing
  | CacheStatus.uploading => SubmissionStatus.processing
  | CacheStatus.validating => SubmissionStatus.processing
  | CacheStatus.evaluating => SubmissionStatus.processing
  | CacheStatus.completed => SubmissionStatus.completed
  | CacheStatus.failed => SubmissionStatus.failed

/-- The cache-hit path of get_submission_status: on a hit, the client
receives the schema projection of the cached status. -/
def get_submission_status_cache_hit (c : Cache) (sid : String) :
    Option SubmissionStatus :=
  (get_progress c sid).map (fun p => cache_to_schema_status p.status)

/-- Outcome of trigger_automatic_evaluation as observed by the worker:
either a boolean result or an exception carrying a message. -/
inductive EvalOutcome where
  | ok (success : Bool)
  | raised (msg : String)
deriving DecidableEq

/-- SubmissionWorker.process_submission (submission_worker.py), with the
collaborator outcomes passed as data: `upload` is the
(success, message, s3_url) triple returned by process_json_file_upload,
`evalO` the outcome of trigger_automatic_evaluation, `db` the durable
record fetched for the task's submission id (none when absent), and
`now` the clock value used for the cache writes.  Durable-store commits
are assumed to succeed, so the result is the final durable record
(unchanged `none` when it was absent) and the final cache. -/
def process_submission (worker_id : Nat) (submission_id : String)
    (upload : Bool × String × String) (evalO : EvalOutcome)
    (db : Option Submission) (cache : Cache) (now : Nat) :
    Option Submission × Cache :=
  let cache := set_progress cache submission_id CacheStatus.processing
    ("Worker " ++ toString worker_id ++ " started processing...")
    10 "Worker Started" none now
  match db with
  | none =>
      let cache := set_progress cache submission_id CacheStatus.failed
        "Submission not found in database" 0 "Error"
        (some ("Submission " ++ submission_id ++ " not found")) now
      (none, cache)
  | some submission =>
      let submission := { submission with
        status := SubmissionStatus.processing
        status_message := some ("Processing by worker " ++ toString worker_id ++ "...") }
      let cache := set_progress cache submission_id CacheStatus.uploading
        "Uploading and validating file..." 30 "File Upload & Validation" none now
      match upload with
      | (success, message, s3_url) =>
        if !success then
          let error_msg := "File processing failed: " ++ message
          let cache := set_progress cache submission_id CacheStatus.failed
            "File upload or validation failed" 0 "Failed" (some error_msg) now
          (some { submission with
                    status := SubmissionStatus.failed
                    status_message := some error_msg }, cache)
        else
          let cache := set_progress cache submission_id CacheStatus.processing
            "File uploaded successfully. Starting evaluation..."
            60 "Starting Evaluation" none now
          let submission := { submission with
            dataset_url := some s3_url
            status_message := some "File uploaded successfully. Running evaluation..." }
          let cache := set_progress cache submission_id CacheStatus.evaluating
            "Running automatic evaluation..." 80 "Evaluation in Progress" none now
          match evalO with
          | EvalOutcome.ok true =>
              let cache := set_progress cache submission_id CacheStatus.completed
                ("Evaluation completed successfully by worker " ++ toString worker_id)
                100 "Completed" none now
              (some { submission with
                        status := SubmissionStatus.completed
                        status_message := some "Evaluation completed successfully" },
               cache)
          | EvalOutcome.ok false =>
              let cache := set_progress cache submission_id CacheStatus.failed
                "Evaluation failed" 0 "Failed" (some "Automatic evaluation failed") now
              (some { submission with
                        status := SubmissionStatus.failed
                        status_message := some "Evaluation failed" }, cache)
          | EvalOutcome.raised m =>
              let cache := set_progress cache submission_id CacheStatus.failed
                "Evaluation error occurred" 0 "Failed"
                (some ("Evaluation error: " ++ m)) now
              (some { submission with
                        status := SubmissionStatus.failed
                        status_message := some ("Evaluation error: " ++ m) }, cache)

/-- `pat` occurs as a contiguous substring of `s` (statement form of the
f-string embeddings `f"File processing failed: {message}"` and friends). -/
def strContains (s pat : String) : Prop :=
  ∃ l r, s.data = l ++ pat.data ++ r

/-- A ground-truth record of the challenge collection:
a dict with keys filename and label. -/
structure GTItem where
  filename : String
  label : String
deriving DecidableEq

/-- A prediction record of the submission collection:
a dict with keys filename and prediction. -/
structure SubItem where
  filename : String
  prediction : String
deriving DecidableEq

/-- Python str.strip(): drop leading and trailing whitespace. -/
def stripStr (s : String) : String :=
  String.mk (((s.data.dropWhile Char.isWhitespace).reverse.dropWhile
    Char.isWhitespace).reverse)

/-- The dict comprehension `{item[k]: item[v] for item in data}`: for a
duplicated filename the later record overwrites the earlier one. -/
def dictOf (pairs : List (String × String)) (k : String) : Option String :=
  pairs.foldl (fun acc kv => if kv.1 = k then some kv.2 else acc) none

/-- `common_files = set(challenge_dict) & set(submission_dict)`; the
iteration order over a Python set is arbitrary, and all downstream uses
(sum and length) are order-independent. -/
def commonFiles (cpairs spairs : List (String × String)) : List String :=
  ((cpairs.map Prod.fst).dedup).filter
    (fun k => (spairs.map Prod.fst).contains k)

/-- The per-pair body of the evaluation loop after the emptiness check:
transliterate reference and prediction, compute and append the CER
score, then compute and append the WER score; any exception skips the
rest of the pair's body (so a WER failure still leaves the CER score
appended).  `tw` models converter.toWylie, `cerF`/`werF` model
cer_scorer.compute/wer_scorer.compute on (prediction, reference). -/
def pairScores (tw : String → Except Unit String)
    (cerF werF : String → String → Except Unit ℚ)
    (reference prediction : String) : List ℚ × List ℚ :=
  match tw reference with
  | Except.error _ => ([], [])
  | Except.ok rw =>
    match tw prediction with
    | Except.error _ => ([], [])
    | Except.ok pw =>
      match cerF pw rw with
      | Except.error _ => ([], [])
      | Except.ok c =>
        match werF pw rw with
        | Except.error _ => ([c], [])
        | Except.ok w => ([c], [w])

/-- The accumulated cer_scores and wer_scores lists of the loop
`for filename in common_files`: pairs whose stripped reference or
prediction is empty are skipped, the others contribute via pairScores. -/
def scoreLists (tw : String → Except Unit String)
    (cerF werF : String → String → Except Unit ℚ)
    (cpairs spairs : List (String × String)) : List ℚ × List ℚ :=
  (commonFiles cpairs spairs).foldr
    (fun f acc =>
      match dictOf cpairs f, dictOf spairs f with
      | some lab, some pred =>
        let reference := stripStr lab
        let prediction := stripStr pred
        if reference.data.isEmpty || prediction.data.isEmpty then acc
        else
          let ps := pairScores tw cerF werF reference prediction
          (ps.1 ++ acc.1, ps.2 ++ acc.2)
      | _, _ => acc)
    ([], [])

/-- Arithmetic mean of a list of scores, `sum(scores) / len(scores)`. -/
def listMean (l : List ℚ) : ℚ := l.sum / (l.length : ℚ)

/-- Python's round-half-to-even on a rational. -/
def roundHalfEven (q : ℚ) : ℤ :=
  let f := ⌊q⌋
  if q - f < 1 / 2 then f
  else if q - f > 1 / 2 then f + 1
  else if f % 2 = 0 then f else f + 1

/-- `round(x, 4)`: round to 4 decimal places. -/
def round4 (q : ℚ) : ℚ := (roundHalfEven (q * 10000) : ℚ) / 10000

/-- `challenge_dict` keys paired with labels. -/
def chPairs (ch : List GTItem) : List (String × String) :=
  ch.map (fun i => (i.filename, i.label))

/-- `submission_dict` keys paired with predictions. -/
def subPairs (sub : List SubItem) : List (String × String) :=
  sub.map (fun i => (i.filename, i.prediction))

/-- The body of the evaluator's outer `try` (Evaluation/evaluation.py,
evaluator): empty intersection returns the worst scores, an empty
cer_scores list returns the worst scores, an empty wer_scores list with
a non-empty cer_scores list raises ZeroDivisionError when the WER mean
is formed (Except.error), and otherwise the rounded means are
returned. -/
def evaluatorCore (tw : String → Except Unit String)
    (cerF werF : String → String → Except Unit ℚ)
    (challenge_data : List GTItem) (submission_data : List SubItem) :
    Except Unit (ℚ × ℚ) :=
  let cpairs := chPairs challenge_data
  let spairs := subPairs submission_data
  if (commonFiles cpairs spairs).isEmpty then Except.ok (1, 1)
  else
    let scores := scoreLists tw cerF werF cpairs spairs
    if scores.1.isEmpty then Except.ok (1, 1)
    else if scores.2.isEmpty then Except.error ()
    else Except.ok (round4 (listMean scores.1), round4 (listMean scores.2))

/-- The evaluator function: the outer `except Exception` converts any
exception escaping the body into the worst-case result
`{'cer': 1.0, 'wer': 1.0}`. -/
def evaluator (tw : String → Except Unit String)
    (cerF werF : String → String → Except Unit ℚ)
    (challenge_data : List GTItem) (submission_data : List SubItem) :
    ℚ × ℚ :=
  match evaluatorCore tw cerF werF challenge_data submission_data with
  | Except.ok r => r
  | Except.error _ => (1, 1)

/-- Identity transliteration (toWylie passes plain ASCII through). -/
def twId : String → Except Unit String := fun s => Except.ok s

/-- A per-pair scorer returning a constant score. -/
def scoreConst (q : ℚ) : String → String → Except Unit ℚ := fun _ _ => Except.ok q

/-- A per-pair scorer that raises on every pair. -/
def scoreRaise : String → String → Except Unit ℚ := fun _ _ => Except.error ()

/-- Sample ground-truth collection with one record. -/
def gtSample : List GTItem := [{ filename := "a.json", label := "x" }]

/-- Sample ground-truth collection whose only label is blank after
stripping. -/
def gtBlankLabel : List GTItem := [{ filename := "a.json", label := " " }]

/-- Sample submission collection with one record. -/
def subSample : List SubItem := [{ filename := "a.json", prediction := "y" }]

/-- Sample set_progress call carrying an error detail. -/
def callA : SetCall :=
  { status := CacheStatus.failed, message := "m1", progress := 10,
    step := "st1", error := some "boom" }

/-- Sample set_progress call carrying no error. -/
def callB : SetCall :=
  { status := CacheStatus.processing, message := "m2", progress := 50,
    step := "st2", error := none }

/-- Sample cached entry. -/
def progSample : SubmissionProgress :=
  { submission_id := "s", status := CacheStatus.pending, message := "m",
    progress_percentage := 5, step := "st", error_details := some "e",
    started_at := 0, updated_at := 0 }

/-- Sample cache with one terminal stale entry, one active stale entry
and one fresh terminal entry. -/
def cacheSample : Cache :=
  [("a", { submission_id := "a", status := CacheStatus.completed,
           message := "done", progress_percentage := 100, step := "Completed",
           error_details := none, started_at := 0, updated_at := 0 }),
   ("b", { submission_id := "b", status := CacheStatus.processing,
           message := "working", progress_percentage := 50, step := "Step",
           error_details := none, started_at := 0, updated_at := 0 }),
   ("c", { submission_id := "c", status := CacheStatus.failed,
           message := "bad", progress_percentage := 0, step := "Failed",
           error_details := some "e", started_at := 0, updated_at := 4000 })]

theorem strData_append (s t : String) : (s ++ t).data = s.data ++ t.data := by
  cases s; cases t; rfl

theorem strContains_append_left (a m : String) : strContains (a ++ m) m :=
  ⟨a.data, [], by simp [strData_append]⟩

theorem get_set_progress_of_none (c : Cache) (id : String) (st : CacheStatus)
    (m : String) (pr : Int) (stp : String) (err : Option String) (now : Nat)
    (h : get_progress c id = none) :
    get_progress (set_progress c id st m pr stp err now) id =
      some { submission_id := id, status := st, message := m,
             progress_percentage := pr, step := stp, error_details := err,
             started_at := now, updated_at := now } := by
  induction c with
  | nil => simp [set_progress, get_progress]
  | cons e rest ih =>
    obtain ⟨k, p⟩ := e
    by_cases hk : k = id
    · simp [get_progress, hk] at h
    · rw [get_progress] at h
      rw [if_neg hk] at h
      rw [set_progress, if_neg hk, get_progress, if_neg hk]
      exact ih h

theorem get_set_progress_of_some (c : Cache) (id : String) (st : CacheStatus)
    (m : String) (pr : Int) (stp : String) (err : Option String) (now : Nat)
    (p : SubmissionProgress) (h : get_progress c id = some p) :
    get_progress (set_progress c id st m pr stp err now) id =
      some (p.update (some st) (some m) (some pr) (some stp) err now) := by
  induction c with
  | nil => simp [get_progress] at h
  | cons e rest ih =>
    obtain ⟨k, q⟩ := e
    by_cases hk : k = id
    · rw [get_progress, if_pos hk] at h
      rw [set_progress, if_pos hk, get_progress, if_pos hk]
      injection h with h
      rw [h]
    · rw [get_progress, if_neg hk] at h
      rw [set_progress, if_neg hk, get_progress, if_neg hk]
      exact ih h

theorem get_set_progress_self (c : Cache) (id : String) (st : CacheStatus)
    (m : String) (pr : Int) (stp : String) (err : Option String) (now : Nat) :
    ∃ q, get_progress (set_progress c id st m pr stp err now) id = some q ∧
      q.status = st ∧ q.message = m ∧ q.step = stp ∧ q.updated_at = now ∧
      (∀ e, err = some e → q.error_details = some e) := by
  cases h : get_progress c id with
  | none =>
      refine ⟨_, get_set_progress_of_none c id st m pr stp err now h,
        rfl, rfl, rfl, rfl, ?_⟩
      intro e he
      simpa using he
  | some p =>
      refine ⟨_, get_set_progress_of_some c id st m pr stp err now p h,
        rfl, rfl, rfl, rfl, ?_⟩
      intro e he
      subst he
      rfl

theorem update_viewOf (p : SubmissionProgress) (sc : SetCall) (now : Nat) :
    viewOf (p.update (some sc.status) (some sc.message) (some sc.progress)
      (some sc.step) sc.error now) = apply_call (viewOf p) sc := rfl

theorem run_calls_view (calls : List SetCall) :
    ∀ (c : Cache) (id : String) (p : SubmissionProgress) (t : Nat),
      get_progress c id = some p →
      ∃ q, get_progress (run_calls c id calls t) id = some q ∧
        viewOf q = calls.foldl apply_call (viewOf p) := by
  induction calls with
  | nil => exact fun c id p t h => ⟨p, h, rfl⟩
  | cons sc rest ih =>
    intro c id p t h
    have hset := get_set_progress_of_some c id sc.status sc.message sc.progress
      sc.step sc.error t p h
    obtain ⟨q, hq, hv⟩ := ih _ id _ (t + 1) hset
    refine ⟨q, hq, ?_⟩
    rw [hv, List.foldl_cons, update_viewOf]

theorem foldl_apply_call_fields (calls : List SetCall) :
    ∀ (c0 : SetCall) (v0 : FieldsView),
      ((c0 :: calls).foldl apply_call v0).status = (calls.getLastD c0).status ∧
      ((c0 :: calls).foldl apply_call v0).message = (calls.getLastD c0).message ∧
      ((c0 :: calls).foldl apply_call v0).progress =
        max 0 (min 100 (calls.getLastD c0).progress) ∧
      ((c0 :: calls).foldl apply_call v0).step = (calls.getLastD c0).step ∧
      ((c0 :: calls).foldl apply_call v0).error = lastErrorFrom v0.error (c0 :: calls) := by
  induction calls with
  | nil =>
    intro c0 v0
    exact ⟨rfl, rfl, rfl, rfl, rfl⟩
  | cons c1 rest ih =>
    intro c0 v0
    have h := ih c1 (apply_call v0 c0)
    rw [List.foldl_cons] at *
    refine ⟨?_, ?_, ?_, ?_, ?_⟩ <;>
      simp only [List.getLastD_cons, lastErrorFrom] <;>
      [exact h.1; exact h.2.1; exact h.2.2.1; exact h.2.2.2.1; exact h.2.2.2.2]

theorem filter_length_partition {α : Type} (l : List α) (p : α → Bool) :
    (l.filter p).length + (l.filter (fun a => !(p a))).length = l.length := by
  induction l with
  | nil => rfl
  | cons a l ih =>
    by_cases h : p a <;> simp [List.filter, h, ← ih] <;> omega

theorem shouldRemoveB_iff (now max_age : Int) (p : SubmissionProgress) :
    shouldRemoveB now max_age p = true ↔
      ((p.status = CacheStatus.completed ∨ p.status = CacheStatus.failed) ∧
        now - (p.updated_at : Int) > max_age) := by
  simp [shouldRemoveB]

theorem listMean_le_one (l : List ℚ) (hne : l ≠ [])
    (h : ∀ x ∈ l, x ≤ 1) : listMean l ≤ 1 := by
  have hlen : 0 < (l.length : ℚ) := by
    have : 0 < l.length := List.length_pos.mpr hne
    exact_mod_cast this
  rw [listMean, div_le_one hlen]
  have := List.sum_le_card_nsmul l 1 h
  simpa using this

theorem roundHalfEven_le (q : ℚ) (n : ℤ) (h : q ≤ n) : roundHalfEven q ≤ n := by
  have hf : ⌊q⌋ ≤ n := by
    have := Int.floor_le_floor h
    simpa using this
  have hfq : (⌊q⌋ : ℚ) ≤ q := Int.floor_le q
  have hqn : q ≤ (n : ℚ) := by exact_mod_cast h
  simp only [roundHalfEven]
  split_ifs with h1 h2 h3
  · exact hf
  · have hlt : (⌊q⌋ : ℚ) + 1 / 2 < q := by linarith
    have hcast : (⌊q⌋ : ℚ) < n := by linarith
    have hfn : ⌊q⌋ < n := by exact_mod_cast hcast
    omega
  · exact hf
  · have heq : q - ⌊q⌋ = 1 / 2 := le_antisymm (not_lt.mp h2) (not_lt.mp h1)
    have hcast : (⌊q⌋ : ℚ) < n := by linarith
    have hfn : ⌊q⌋ < n := by exact_mod_cast hcast
    omega

theorem round4_le_one (q : ℚ) (h : q ≤ 1) : round4 q ≤ 1 := by
  have h1 : q * 10000 ≤ ((10000 : ℤ) : ℚ) := by
    push_cast
    linarith
  have h2 := roundHalfEven_le (q * 10000) 10000 h1
  rw [round4, div_le_one (by norm_num : (0:ℚ) < 10000)]
  exact_mod_cast h2

theorem scoreLists_of_common_nil (tw : String → Except Unit String)
    (cerF werF : String → String → Except Unit ℚ)
    (cpairs spairs : List (String × String))
    (h : commonFiles cpairs spairs = []) :
    scoreLists tw cerF werF cpairs spairs = ([], []) := by
  rw [scoreLists, h]
  rfl

/-- Claim C4: evaluation of set_progress at the failing input.  Storing a
progress value of 150 under a key not yet in the cache stores 150
unclamped (outside [0, 100]); the same value sent to an existing entry is
clamped to 100.  The creation path of set_progress performs no
clamping, so the claimed invariant fails for new entries. -/
theorem set_progress_create_does_not_clamp :
    ((get_progress (set_progress [] "sub-1" CacheStatus.pending "queued" 150 "" none 0)
        "sub-1").map (fun p => p.progress_percentage) = some 150) ∧
    ¬((150 : Int) ≤ 100) ∧
    ((get_progress (set_progress
        (set_progress [] "sub-1" CacheStatus.pending "queued" 150 "" none 0)
        "sub-1" CacheStatus.pending "again" 150 "" none 1)
        "sub-1").map (fun p => p.progress_percentage) = some 100) := by
  decide

/-- Claim C5, counterexample: two sequential set_progress calls on one
key, the first carrying an error detail and the second carrying none;
get_progress then returns the first call's error detail, not the value
passed by the most recent call. -/
theorem run_calls_error_not_last_write :
    ((get_progress (run_calls [] "s" [callA, callB] 0) "s").map
      (fun p => p.error_details) = some (some "boom")) ∧
    callB.error = none ∧
    some (some "boom") ≠ some callB.error := by
  decide

/-- Claim C5, amended: for every nonempty sequence of sequential
set_progress calls on one key with no intervening removal, get_progress
returns an entry whose status, message and step equal the most recent
call's values, whose progress equals the most recent call's progress
whenever that value lies in [0, 100], and whose error_details equals the
most recent error value actually passed as present across the whole
sequence (a call passing no error preserves the previous detail). -/
theorem cache_last_write_wins (id : String) (first : SetCall) (rest : List SetCall)
    (t0 : Nat) (h0 : 0 ≤ (rest.getLastD first).progress)
    (h1 : (rest.getLastD first).progress ≤ 100) :
    ((get_progress (run_calls [] id (first :: rest) t0) id).map
       (fun q => q.status) = some (rest.getLastD first).status) ∧
    ((get_progress (run_calls [] id (first :: rest) t0) id).map
       (fun q => q.message) = some (rest.getLastD first).message) ∧
    ((get_progress (run_calls [] id (first :: rest) t0) id).map
       (fun q => q.progress_percentage) = some (rest.getLastD first).progress) ∧
    ((get_progress (run_calls [] id (first :: rest) t0) id).map
       (fun q => q.step) = some (rest.getLastD first).step) ∧
    ((get_progress (run_calls [] id (first :: rest) t0) id).map
       (fun q => q.error_details) = some (lastErrorFrom none (first :: rest))) := by
  have hq0 : get_progress (set_progress [] id first.status first.message
      first.progress first.step first.error t0) id =
      some { submission_id := id, status := first.status, message := first.message,
             progress_percentage := first.progress, step := first.step,
             error_details := first.error, started_at := t0, updated_at := t0 } := by
    simp [set_progress, get_progress]
  obtain ⟨q, hq, hv⟩ := run_calls_view rest _ id _ (t0 + 1) hq0
  have hrun : run_calls [] id (first :: rest) t0 =
      run_calls (set_progress [] id first.status first.message first.progress
        first.step first.error t0) id rest (t0 + 1) := rfl
  rw [hrun, hq]
  simp only [Option.map_some']
  cases rest with
  | nil =>
    simp only [List.foldl_nil] at hv
    refine ⟨congrArg some (congrArg FieldsView.status hv),
      congrArg some (congrArg FieldsView.message hv),
      congrArg some (congrArg FieldsView.progress hv),
      congrArg some (congrArg FieldsView.step hv), ?_⟩
    have he : q.error_details = first.error := congrArg FieldsView.error hv
    rw [he]
    cases hfe : first.error <;> simp [lastErrorFrom, hfe]
  | cons c1 rest' =>
    have hf := foldl_apply_call_fields rest' c1
      (viewOf { submission_id := id, status := first.status, message := first.message,
                progress_percentage := first.progress, step := first.step,
                error_details := first.error, started_at := t0, updated_at := t0 })
    rw [List.getLastD_cons] at h0 h1 ⊢
    refine ⟨?_, ?_, ?_, ?_, ?_⟩
    · exact congrArg some ((congrArg FieldsView.status hv).trans hf.1)
    · exact congrArg some ((congrArg FieldsView.message hv).trans hf.2.1)
    · have hp : q.progress_percentage =
          max 0 (min 100 (rest'.getLastD c1).progress) :=
        (congrArg FieldsView.progress hv).trans hf.2.2.1
      have hcl : max 0 (min 100 (rest'.getLastD c1).progress) =
          (rest'.getLastD c1).progress := by omega
      rw [hp, hcl]
    · exact congrArg some ((congrArg FieldsView.step hv).trans hf.2.2.2.1)
    · have he : q.error_details = lastErrorFrom first.error (c1 :: rest') :=
        (congrArg FieldsView.error hv).trans hf.2.2.2.2
      rw [he]
      cases hfe : first.error <;> simp [lastErrorFrom, hfe]

/-- Claim C5, amended, witness: the sequence [callA, callB] at key "s";
the final fields are callB's status, message, progress and step, and
callA's error detail (callB passes none). -/
theorem cache_last_write_wins_witness :
    ((get_progress (run_calls [] "s" [callA, callB] 0) "s").map
       (fun q => q.status) = some CacheStatus.processing) ∧
    ((get_progress (run_calls [] "s" [callA, callB] 0) "s").map
       (fun q => q.message) = some "m2") ∧
    ((get_progress (run_calls [] "s" [callA, callB] 0) "s").map
       (fun q => q.progress_percentage) = some 50) ∧
    ((get_progress (run_calls [] "s" [callA, callB] 0) "s").map
       (fun q => q.step) = some "st2") ∧
    ((get_progress (run_calls [] "s" [callA, callB] 0) "s").map
       (fun q => q.error_details) = some (some "boom")) :=
  cache_last_write_wins "s" callA [callB] 0 (by decide) (by decide)

/-- Claim C10: SubmissionProgress.update only modifies fields whose
arguments are present: a none argument leaves status, message, progress,
step or error_details at its previous value; submission_id and
started_at are never changed; updated_at is always refreshed to the call
time; and set_progress on an existing key passing no error preserves the
stored error_details. -/
theorem update_frame_conditions (p : SubmissionProgress) (st : Option CacheStatus)
    (msg : Option String) (pr : Option Int) (stp : Option String)
    (err : Option String) (now : Nat) :
    (st = none → (p.update st msg pr stp err now).status = p.status) ∧
    (msg = none → (p.update st msg pr stp err now).message = p.message) ∧
    (pr = none →
      (p.update st msg pr stp err now).progress_percentage = p.progress_percentage) ∧
    (stp = none → (p.update st msg pr stp err now).step = p.step) ∧
    (err = none → (p.update st msg pr stp err now).error_details = p.error_details) ∧
    (p.update st msg pr stp err now).submission_id = p.submission_id ∧
    (p.update st msg pr stp err now).started_at = p.started_at ∧
    (p.update st msg pr stp err now).updated_at = now ∧
    (∀ (c : Cache) (id : String) (q : SubmissionProgress) (st2 : CacheStatus)
       (m2 : String) (pr2 : Int) (stp2 : String) (now2 : Nat),
       get_progress c id = some q →
       (get_progress (set_progress c id st2 m2 pr2 stp2 none now2) id).map
         (fun x => x.error_details) = some q.error_details) := by
  refine ⟨?_, ?_, ?_, ?_, ?_, rfl, rfl, rfl, ?_⟩
  · intro h; subst h; rfl
  · intro h; subst h; rfl
  · intro h; subst h; rfl
  · intro h; subst h; rfl
  · intro h; subst h; rfl
  · intro c id q st2 m2 pr2 stp2 now2 hq
    rw [get_set_progress_of_some c id st2 m2 pr2 stp2 none now2 q hq]
    rfl

/-- Claim C10, witness: the frame conditions evaluated on a concrete
entry and a concrete one-entry cache. -/
theorem update_frame_conditions_witness :
    ((progSample.update none none none none none 3).status = progSample.status) ∧
    ((progSample.update none none none none none 3).error_details =
      progSample.error_details) ∧
    ((progSample.update none none none none none 3).started_at =
      progSample.started_at) ∧
    ((progSample.update none none none none none 3).updated_at = 3) ∧
    ((get_progress (set_progress [("s", progSample)] "s" CacheStatus.processing
        "m2" 50 "st2" none 9) "s").map (fun x => x.error_details) =
      some progSample.error_details) := by
  obtain ⟨h1, h2, h3, h4, h5, h6, h7, h8, h9⟩ :=
    update_frame_conditions progSample none none none none none 3
  exact ⟨h1 rfl, h5 rfl, h7, h8,
    h9 [("s", progSample)] "s" progSample CacheStatus.processing "m2" 50 "st2" 9
      (by decide)⟩

/-- Claim C6: on a cache hit the status returned to the client is one of
exactly pending, processing, completed, failed; the fine-grained cache
states uploading, validating and evaluating all collapse to processing,
and pending, processing, completed, failed map to themselves. -/
theorem status_projection_four_states :
    (∀ (c : Cache) (sid : String) (st : SubmissionStatus),
       get_submission_status_cache_hit c sid = some st →
       (st = SubmissionStatus.pending ∨ st = SubmissionStatus.processing ∨
        st = SubmissionStatus.completed ∨ st = SubmissionStatus.failed)) ∧
    cache_to_schema_status CacheStatus.pending = SubmissionStatus.pending ∧
    cache_to_schema_status CacheStatus.processing = SubmissionStatus.processing ∧
    cache_to_schema_status CacheStatus.uploading = SubmissionStatus.processing ∧
    cache_to_schema_status CacheStatus.validating = SubmissionStatus.processing ∧
    cache_to_schema_status CacheStatus.evaluating = SubmissionStatus.processing ∧
    cache_to_schema_status CacheStatus.completed = SubmissionStatus.completed ∧
    cache_to_schema_status CacheStatus.failed = SubmissionStatus.failed := by
  refine ⟨?_, rfl, rfl, rfl, rfl, rfl, rfl, rfl⟩
  intro c sid st h
  rw [get_submission_status_cache_hit] at h
  cases hg : get_progress c sid with
  | none => rw [hg] at h; simp at h
  | some p =>
    rw [hg] at h
    simp only [Option.map_some', Option.some.injEq] at h
    subst h
    cases p.status <;> simp [cache_to_schema_status]

/-- Claim C6, witness: a cache hit on the completed entry of the sample
cache yields a coarse status. -/
theorem status_projection_four_states_witness :
    SubmissionStatus.completed = SubmissionStatus.pending ∨
    SubmissionStatus.completed = SubmissionStatus.processing ∨
    SubmissionStatus.completed = SubmissionStatus.completed ∨
    SubmissionStatus.completed = SubmissionStatus.failed :=
  status_projection_four_states.1 cacheSample "a" SubmissionStatus.completed
    (by decide)

/-- Claim C7: cleanup_old_entries keeps an entry if and only if it is
not (terminal and older than max_age before now); every kept entry is an
unchanged entry of the original cache; and the returned count plus the
number of kept entries equals the original size, so the count is the
number of removed entries. -/
theorem cleanup_old_entries_spec (c : Cache) (now max_age : Int) :
    (∀ e, e ∈ c →
      (e ∈ (cleanup_old_entries c now max_age).1 ↔
        ¬((e.2.status = CacheStatus.completed ∨ e.2.status = CacheStatus.failed) ∧
          now - (e.2.updated_at : Int) > max_age))) ∧
    (∀ e, e ∈ (cleanup_old_entries c now max_age).1 → e ∈ c) ∧
    (cleanup_old_entries c now max_age).2 +
      (cleanup_old_entries c now max_age).1.length = c.length := by
  refine ⟨?_, ?_, ?_⟩
  · intro e he
    simp [cleanup_old_entries, List.mem_filter, he, shouldRemoveB, not_and, or_imp]
    tauto
  · intro e he
    simp only [cleanup_old_entries] at he
    exact (List.mem_filter.mp he).1
  · simp only [cleanup_old_entries]
    exact filter_length_partition c _

/-- Claim C7, witness: on the sample cache at time 5000 with a 3600
second window, the stale completed entry is removed, the active entry is
kept unchanged, and the counts add up. -/
theorem cleanup_old_entries_spec_witness :
    ((cacheSample.get ⟨0, by decide⟩) ∈ (cleanup_old_entries cacheSample 5000 3600).1 ↔
      ¬((((cacheSample.get ⟨0, by decide⟩).2.status = CacheStatus.completed ∨
          (cacheSample.get ⟨0, by decide⟩).2.status = CacheStatus.failed)) ∧
        (5000 : Int) - ((cacheSample.get ⟨0, by decide⟩).2.updated_at : Int) > 3600)) ∧
    ((cacheSample.get ⟨1, by decide⟩) ∈ cacheSample) ∧
    ((cleanup_old_entries cacheSample 5000 3600).2 +
      (cleanup_old_entries cacheSample 5000 3600).1.length = cacheSample.length) := by
  have h := cleanup_old_entries_spec cacheSample 5000 3600
  exact ⟨h.1 _ (by decide), h.2.1 _ (by decide), h.2.2⟩

/-- Claim C1: when the durable record exists at the start of
process_submission, the record returned at the end has status exactly
completed or failed (never pending or processing), for every upload and
evaluation outcome; durable-store writes are modelled as always
succeeding. -/
theorem worker_terminal_status (wid : Nat) (sid : String)
    (upload : Bool × String × String) (evalO : EvalOutcome) (s : Submission)
    (cache : Cache) (now : Nat) :
    ∃ s', (process_submission wid sid upload evalO (some s) cache now).1 = some s' ∧
      (s'.status = SubmissionStatus.completed ∨ s'.status = SubmissionStatus.failed) := by
  obtain ⟨success, message, s3_url⟩ := upload
  cases success with
  | false => exact ⟨_, rfl, Or.inr rfl⟩
  | true =>
    cases evalO with
    | ok b =>
      cases b with
      | false => exact ⟨_, rfl, Or.inr rfl⟩
      | true => exact ⟨_, rfl, Or.inl rfl⟩
    | raised m => exact ⟨_, rfl, Or.inr rfl⟩

/-- Claim C8: when the durable record is absent at the start of
process_submission, the worker aborts: the cache entry for the task's
submission id ends failed with the not-found error detail, and no
durable record is created or modified (the durable side stays none). -/
theorem worker_missing_record_aborts (wid : Nat) (sid : String)
    (upload : Bool × String × String) (evalO : EvalOutcome)
    (cache : Cache) (now : Nat) :
    (process_submission wid sid upload evalO none cache now).1 = none ∧
    ((get_progress (process_submission wid sid upload evalO none cache now).2 sid).map
       (fun q => q.status) = some CacheStatus.failed) ∧
    ((get_progress (process_submission wid sid upload evalO none cache now).2 sid).map
       (fun q => q.error_details) =
      some (some ("Submission " ++ sid ++ " not found"))) := by
  obtain ⟨q, hq, hst, hmsg, hstp, hupd, herr⟩ :=
    get_set_progress_self
      (set_progress cache sid CacheStatus.processing
        ("Worker " ++ toString wid ++ " started processing...") 10 "Worker Started"
        none now)
      sid CacheStatus.failed "Submission not found in database" 0 "Error"
      (some ("Submission " ++ sid ++ " not found")) now
  refine ⟨rfl, ?_, ?_⟩
  · show (get_progress (set_progress (set_progress cache sid CacheStatus.processing
        ("Worker " ++ toString wid ++ " started processing...") 10 "Worker Started"
        none now) sid CacheStatus.failed "Submission not found in database" 0 "Error"
        (some ("Submission " ++ sid ++ " not found")) now) sid).map
      (fun q => q.status) = some CacheStatus.failed
    rw [hq, Option.map_some', hst]
  · show (get_progress (set_progress (set_progress cache sid CacheStatus.processing
        ("Worker " ++ toString wid ++ " started processing...") 10 "Worker Started"
        none now) sid CacheStatus.failed "Submission not found in database" 0 "Error"
        (some ("Submission " ++ sid ++ " not found")) now) sid).map
      (fun q => q.error_details) = some (some ("Submission " ++ sid ++ " not found"))
    rw [hq, Option.map_some', herr _ rfl]

/-- Claim C9: when the upload/validation collaborator reports failure
with message m, processing ends with the cache entry failed carrying an
error detail containing m, and the durable record failed with a status
message containing m. -/
theorem worker_upload_failure_marks_failed (wid : Nat) (sid : String)
    (m s3_url : String) (evalO : EvalOutcome) (s : Submission)
    (cache : Cache) (now : Nat) :
    ((get_progress (process_submission wid sid (false, m, s3_url) evalO (some s)
        cache now).2 sid).map (fun q => q.status) = some CacheStatus.failed) ∧
    ((get_progress (process_submission wid sid (false, m, s3_url) evalO (some s)
        cache now).2 sid).map (fun q => q.error_details) =
      some (some ("File processing failed: " ++ m))) ∧
    strContains ("File processing failed: " ++ m) m ∧
    ((process_submission wid sid (false, m, s3_url) evalO (some s) cache now).1.map
       (fun x => x.status) = some SubmissionStatus.failed) ∧
    ((process_submission wid sid (false, m, s3_url) evalO (some s) cache now).1.map
       (fun x => x.status_message) =
      some (some ("File processing failed: " ++ m))) := by
  obtain ⟨q, hq, hst, hmsg, hstp, hupd, herr⟩ :=
    get_set_progress_self
      (set_progress
        (set_progress cache sid CacheStatus.processing
          ("Worker " ++ toString wid ++ " started processing...") 10 "Worker Started"
          none now)
        sid CacheStatus.uploading "Uploading and validating file..." 30
        "File Upload & Validation" none now)
      sid CacheStatus.failed "File upload or validation failed" 0 "Failed"
      (some ("File processing failed: " ++ m)) now
  refine ⟨?_, ?_, strContains_append_left "File processing failed: " m, rfl, rfl⟩
  · show (get_progress (set_progress
        (set_progress
          (set_progress cache sid CacheStatus.processing
            ("Worker " ++ toString wid ++ " started processing...") 10 "Worker Started"
            none now)
          sid CacheStatus.uploading "Uploading and validating file..." 30
          "File Upload & Validation" none now)
        sid CacheStatus.failed "File upload or validation failed" 0 "Failed"
        (some ("File processing failed: " ++ m)) now) sid).map
      (fun q => q.status) = some CacheStatus.failed
    rw [hq, Option.map_some', hst]
  · show (get_progress (set_progress
        (set_progress
          (set_progress cache sid CacheStatus.processing
            ("Worker " ++ toString wid ++ " started processing...") 10 "Worker Started"
            none now)
          sid CacheStatus.uploading "Uploading and validating file..." 30
          "File Upload & Validation" none now)
        sid CacheStatus.failed "File upload or validation failed" 0 "Failed"
        (some ("File processing failed: " ++ m)) now) sid).map
      (fun q => q.error_details) = some (some ("File processing failed: " ++ m))
    rw [hq, Option.map_some', herr _ rfl]

/-- Claim C2: the evaluator always yields a (cer, wer) result pair and
never lets an exception escape: an empty key intersection yields the
worst-case scores (1, 1); an empty cer score list (every intersected
pair skipped) yields (1, 1); and any exception reaching the outer
handler (Except.error in the core) yields (1, 1). -/
theorem evaluator_total_worst_case (tw : String → Except Unit String)
    (cerF werF : String → String → Except Unit ℚ)
    (ch : List GTItem) (sub : List SubItem) :
    (commonFiles (chPairs ch) (subPairs sub) = [] →
      evaluator tw cerF werF ch sub = (1, 1)) ∧
    ((scoreLists tw cerF werF (chPairs ch) (subPairs sub)).1 = [] →
      evaluator tw cerF werF ch sub = (1, 1)) ∧
    (evaluatorCore tw cerF werF ch sub = Except.error () →
      evaluator tw cerF werF ch sub = (1, 1)) := by
  refine ⟨?_, ?_, ?_⟩
  · intro h
    simp [evaluator, evaluatorCore, h]
  · intro h
    by_cases hc : commonFiles (chPairs ch) (subPairs sub) = []
    · simp [evaluator, evaluatorCore, hc]
    · simp [evaluator, evaluatorCore, hc, h]
  · intro h
    simp [evaluator, h]

/-- Claim C2, witness: the three edge cases at concrete inputs — no
common key, the only common pair blank after stripping, and a WER
scorer exception after a successful CER score (the zero-division path
of the outer handler). -/
theorem evaluator_total_worst_case_witness :
    evaluator twId (scoreConst 1) (scoreConst 1) [] subSample = (1, 1) ∧
    evaluator twId (scoreConst 1) (scoreConst 1) gtBlankLabel subSample = (1, 1) ∧
    evaluator twId (scoreConst 1) scoreRaise gtSample subSample = (1, 1) :=
  ⟨(evaluator_total_worst_case twId (scoreConst 1) (scoreConst 1) [] subSample).1
      (by decide),
   (evaluator_total_worst_case twId (scoreConst 1) (scoreConst 1) gtBlankLabel
      subSample).2.1 (by decide),
   (evaluator_total_worst_case twId (scoreConst 1) scoreRaise gtSample
      subSample).2.2 rfl⟩

/-- Claim C3, counterexample: with a per-pair metric value of 2 (real
character error rate exceeds 1 whenever the prediction is sufficiently
longer than the reference), the evaluator returns 2 per metric, which is
not at most 1 — the code never caps the mean at 1. -/
theorem evaluator_score_exceeds_one :
    evaluator twId (scoreConst 2) (scoreConst 2) gtSample subSample = (2, 2) ∧
    ¬((2 : ℚ) ≤ 1) := by
  have hc : commonFiles (chPairs gtSample) (subPairs subSample) = ["a.json"] := by
    decide
  have hs : scoreLists twId (scoreConst 2) (scoreConst 2) (chPairs gtSample)
      (subPairs subSample) = ([2], [2]) := by decide
  have h2 : round4 (listMean [(2 : ℚ)]) = 2 := by
    norm_num [round4, roundHalfEven, listMean]
  constructor
  · simp [evaluator, evaluatorCore, hc, hs, h2]
  · norm_num

/-- Claim C3, amended: with at least one pair scored for each metric,
each returned metric score equals the arithmetic mean of that metric's
per-pair values over the successfully scored pairs, rounded to 4 decimal
places; the score is at most 1 provided every per-pair value is at most
1 (true for normalized metrics, not enforced by the code). -/
theorem evaluator_mean_round4 (tw : String → Except Unit String)
    (cerF werF : String → String → Except Unit ℚ)
    (ch : List GTItem) (sub : List SubItem)
    (h1 : (scoreLists tw cerF werF (chPairs ch) (subPairs sub)).1 ≠ [])
    (h2 : (scoreLists tw cerF werF (chPairs ch) (subPairs sub)).2 ≠ []) :
    evaluator tw cerF werF ch sub =
      (round4 (listMean (scoreLists tw cerF werF (chPairs ch) (subPairs sub)).1),
       round4 (listMean (scoreLists tw cerF werF (chPairs ch) (subPairs sub)).2)) ∧
    ((∀ x ∈ (scoreLists tw cerF werF (chPairs ch) (subPairs sub)).1, x ≤ 1) →
      (evaluator tw cerF werF ch sub).1 ≤ 1) ∧
    ((∀ x ∈ (scoreLists tw cerF werF (chPairs ch) (subPairs sub)).2, x ≤ 1) →
      (evaluator tw cerF werF ch sub).2 ≤ 1) := by
  have hc : commonFiles (chPairs ch) (subPairs sub) ≠ [] := by
    intro hc
    exact h1 (congrArg Prod.fst (scoreLists_of_common_nil tw cerF werF _ _ hc))
  have heq : evaluator tw cerF werF ch sub =
      (round4 (listMean (scoreLists tw cerF werF (chPairs ch) (subPairs sub)).1),
       round4 (listMean (scoreLists tw cerF werF (chPairs ch) (subPairs sub)).2)) := by
    simp [evaluator, evaluatorCore, hc, h1, h2]
  refine ⟨heq, ?_, ?_⟩
  · intro hb
    rw [heq]
    exact round4_le_one _ (listMean_le_one _ h1 hb)
  · intro hb
    rw [heq]
    exact round4_le_one _ (listMean_le_one _ h2 hb)

/-- Claim C3, amended, witness: one scorable pair with per-pair value 1
for both metrics. -/
theorem evaluator_mean_round4_witness :
    evaluator twId (scoreConst 1) (scoreConst 1) gtSample subSample =
      (round4 (listMean (scoreLists twId (scoreConst 1) (scoreConst 1)
         (chPairs gtSample) (subPairs subSample)).1),
       round4 (listMean (scoreLists twId (scoreConst 1) (scoreConst 1)
         (chPairs gtSample) (subPairs subSample)).2)) ∧
    (evaluator twId (scoreConst 1) (scoreConst 1) gtSample subSample).1 ≤ 1 ∧
    (evaluator twId (scoreConst 1) (scoreConst 1) gtSample subSample).2 ≤ 1 := by
  have h := evaluator_mean_round4 twId (scoreConst 1) (scoreConst 1) gtSample
    subSample (by decide) (by decide)
  exact ⟨h.1, h.2.1 (by decide), h.2.2 (by decide)⟩
